import Mathlib

/-!
# Capability model of `cheri.h`

A shallow embedding of the capability header of the emulator: its layout
constants, the fault enumeration `ExceptionType`, the register image
`cap_register_t`, and the result records of the bounds operations.

`cheri.h` only declares the capability operations; their bodies are not part
of the header.  Every operation defined below whose doc comment starts with
"Modelled from the spec" follows the specification text, and keeps the C types
the header declares for its arguments and results.
-/

namespace Cheri

/-! ## Layout constants -/

/-- Modelled from the spec: `XLEN` is defined by the CPU template that includes
`cheri.h`, not by the header; the specification fixes the 128-bit capability
format, whose address width is 64. -/
def XLEN : Nat := 64

/-- Source: `#define CAP_ADDR_WIDTH XLEN`. -/
def CAP_ADDR_WIDTH : Nat := XLEN

/-- Source: `#define CAP_LEN_WIDTH (CAP_ADDR_WIDTH + 1)`. -/
def CAP_LEN_WIDTH : Nat := CAP_ADDR_WIDTH + 1

/-- Source: `#define CAP_SIZE 16`. -/
def CAP_SIZE : Nat := 16

/-- Source: `#define CAP_MANTISSA_WIDTH 14`. -/
def CAP_MANTISSA_WIDTH : Nat := 14

/-- Source: `#define CAP_HPERMS_WIDTH 14`. -/
def CAP_HPERMS_WIDTH : Nat := 14

/-- Source: `#define CAP_UPERMS_WIDTH 4`. -/
def CAP_UPERMS_WIDTH : Nat := 4

/-- Source: `#define CAP_UPERMS_SHIFT 15`. -/
def CAP_UPERMS_SHIFT : Nat := 15

/-- Source: `#define CAP_FLAGS_WIDTH 1`. -/
def CAP_FLAGS_WIDTH : Nat := 1

/-- Source: `#define CAP_OTYPE_WIDTH 18`. -/
def CAP_OTYPE_WIDTH : Nat := 18

/-- Source: `#define RESERVED_OTYPES 4`. -/
def RESERVED_OTYPES : Nat := 4

/-- Source: `#define CAP_MAX_OTYPE ((1 << CAP_OTYPE_WIDTH) - RESERVED_OTYPES)`. -/
def CAP_MAX_OTYPE : Nat := (1 <<< CAP_OTYPE_WIDTH) - RESERVED_OTYPES

/-- Source: `#define CAPS_PER_CACHE_LINE 4`. -/
def CAPS_PER_CACHE_LINE : Nat := 4

/-- Width in bits of the C type `uint64_t`, the declared type of `base`,
`length`, `offset`, `permissions`, `uperissions`, `flags`, `otype` and
`_cap_cursor` in `cap_register_t`, of both fields of `CapBounds`, and of the
results of `get_cap_length` and `get_cap_top`. -/
def UINT64_WIDTH : Nat := 64

/-- The value an object of type `uint64_t` holds after a number is stored in it. -/
def to_uint64 (x : Nat) : Nat := x % 2 ^ UINT64_WIDTH

/-! ## Fault kinds -/

/-- Source: `typedef enum ExceptionType`. -/
inductive ExceptionType where
  | None
  | LengthViolation
  | TagViolation
  | SealViolation
  | TypeViolation
  | CallTrap
  | ReturnTrap
  | TSSUnderFlow
  | UserDefViolation
  | TLBNoStoreCap
  | InexactBounds
  | UnalignedBase
  | CapLoadGen
  | GlobalViolation
  | PermitExecuteViolation
  | PermitLoadViolation
  | PermitStoreViolation
  | PermitLoadCapViolation
  | PermitStoreCapViolation
  | PermitStoreLocalCapViolation
  | PermitSealViolation
  | AccessSystemRegsViolation
  | PermitCCallViolation
  | AccessCCallIDCViolation
  | PermitUnsealViolation
  | PermitSetCIDViolation
  deriving DecidableEq, Repr

/-- The numeric code the enumeration gives each kind. -/
def ExceptionType.code : ExceptionType → Nat
  | .None => 0x0
  | .LengthViolation => 0x1
  | .TagViolation => 0x2
  | .SealViolation => 0x3
  | .TypeViolation => 0x4
  | .CallTrap => 0x5
  | .ReturnTrap => 0x6
  | .TSSUnderFlow => 0x7
  | .UserDefViolation => 0x8
  | .TLBNoStoreCap => 0x9
  | .InexactBounds => 0xA
  | .UnalignedBase => 0xB
  | .CapLoadGen => 0xC
  | .GlobalViolation => 0x10
  | .PermitExecuteViolation => 0x11
  | .PermitLoadViolation => 0x12
  | .PermitStoreViolation => 0x13
  | .PermitLoadCapViolation => 0x14
  | .PermitStoreCapViolation => 0x15
  | .PermitStoreLocalCapViolation => 0x16
  | .PermitSealViolation => 0x17
  | .AccessSystemRegsViolation => 0x18
  | .PermitCCallViolation => 0x19
  | .AccessCCallIDCViolation => 0x1A
  | .PermitUnsealViolation => 0x1B
  | .PermitSetCIDViolation => 0x1C

/-- The thirteen hardware permissions the specification names, in the order it
names them: global, execute, load, store, load-cap, store-cap,
store-local-cap, seal, access-system-regs, invoke, access-invoke-data, unseal,
set-compartment-id. -/
inductive HardwarePermission where
  | Global
  | Execute
  | Load
  | Store
  | LoadCap
  | StoreCap
  | StoreLocalCap
  | Seal
  | AccessSystemRegs
  | Invoke
  | AccessInvokeData
  | Unseal
  | SetCID
  deriving DecidableEq, Repr, Fintype

/-- Position of a permission in the order of naming, from 0. -/
def HardwarePermission.index : HardwarePermission → Nat
  | .Global => 0
  | .Execute => 1
  | .Load => 2
  | .Store => 3
  | .LoadCap => 4
  | .StoreCap => 5
  | .StoreLocalCap => 6
  | .Seal => 7
  | .AccessSystemRegs => 8
  | .Invoke => 9
  | .AccessInvokeData => 10
  | .Unseal => 11
  | .SetCID => 12

/-- The kind of `ExceptionType` that reports the violation of a permission,
matched by the names of the enumeration. -/
def HardwarePermission.violation : HardwarePermission → ExceptionType
  | .Global => .GlobalViolation
  | .Execute => .PermitExecuteViolation
  | .Load => .PermitLoadViolation
  | .Store => .PermitStoreViolation
  | .LoadCap => .PermitLoadCapViolation
  | .StoreCap => .PermitStoreCapViolation
  | .StoreLocalCap => .PermitStoreLocalCapViolation
  | .Seal => .PermitSealViolation
  | .AccessSystemRegs => .AccessSystemRegsViolation
  | .Invoke => .PermitCCallViolation
  | .AccessInvokeData => .AccessCCallIDCViolation
  | .Unseal => .PermitUnsealViolation
  | .SetCID => .PermitSetCIDViolation

/-- A kind is a permission violation when it reports one of the thirteen
hardware permissions. -/
def ExceptionType.isPermissionViolation (e : ExceptionType) : Prop :=
  ∃ p : HardwarePermission, p.violation = e

instance (e : ExceptionType) : Decidable e.isPermissionViolation := by
  unfold ExceptionType.isPermissionViolation
  infer_instance

/-! ## Register image and result records -/

/-- Source: the `cap_register_t` struct.  Every field is a `uint64_t` except
`tag`, a `uint8_t`; field values are natural numbers below the width of their
C type. -/
structure cap_register_t where
  base : Nat
  length : Nat
  offset : Nat
  permissions : Nat
  uperissions : Nat
  flags : Nat
  otype : Nat
  tag : Nat
  _cap_cursor : Nat
  deriving DecidableEq, Repr

/-- Source: `typedef cap_register_t capability_t`. -/
abbrev capability_t : Type := cap_register_t

/-- Source: the `CapBounds` struct, two `uint64_t` fields. -/
structure CapBounds where
  base : Nat
  top : Nat
  deriving DecidableEq, Repr

/-- Source: the `SetCapBoundsResult` struct. -/
structure SetCapBoundsResult where
  exact : Bool
  cap : capability_t
  deriving DecidableEq, Repr

/-! ## Field readers -/

/-- Modelled from the spec: `get_cap_length` is declared in `cheri.h` without a
body; it reads the stored length and returns it as the declared `uint64_t`. -/
def get_cap_length (cap : capability_t) : Nat := to_uint64 cap.length

/-- Modelled from the spec: `get_cap_top` is declared in `cheri.h` without a
body; the specification gives `top = base + length`, and the declared result
type is `uint64_t`. -/
def get_cap_top (cap : capability_t) : Nat := to_uint64 (cap.base + cap.length)

/-- Modelled from the spec: `get_cap_bounds` is declared in `cheri.h` without a
body; the stored bounds are the decompressed pair, `top = base + length`, and
both are returned in the `uint64_t` fields of `CapBounds`. -/
def get_cap_bounds (cap : capability_t) : CapBounds :=
  { base := to_uint64 cap.base, top := to_uint64 (cap.base + cap.length) }

/-! ## Seal and tag state -/

/-- Modelled from the spec: `has_reserved_otype` is declared in `cheri.h`
without a body; the reserved sentinel values are those from `CAP_MAX_OTYPE`
up. -/
def has_reserved_otype (cap : capability_t) : Bool := decide (CAP_MAX_OTYPE ≤ cap.otype)

/-- Modelled from the spec: `is_cap_sealed` is declared in `cheri.h` without a
body; a capability is sealed iff its object type is not one of the reserved
sentinel values. -/
def is_cap_sealed (cap : capability_t) : Bool := !has_reserved_otype cap

/-- Modelled from the spec: `clear_tag` is declared in `cheri.h` without a
body; it invalidates the tag and mutates no other field. -/
def clear_tag (cap : capability_t) : capability_t := { cap with tag := 0 }

/-- Modelled from the spec: `clear_tag_if` is declared in `cheri.h` without a
body; the conditional form of `clear_tag`. -/
def clear_tag_if (cap : capability_t) (condition : Bool) : capability_t :=
  if condition then clear_tag cap else cap

/-- Modelled from the spec: `clear_tag_if_sealed` is declared in `cheri.h`
without a body; it clears the tag of a sealed capability. -/
def clear_tag_if_sealed (cap : capability_t) : capability_t :=
  clear_tag_if cap (is_cap_sealed cap)

/-- A tagged, unsealed capability over `[0x1000, 0x1100)` with its cursor at
the base. -/
def sample_cap : capability_t :=
  { base := 0x1000, length := 0x100, offset := 0, permissions := 0x3FFF, uperissions := 0,
    flags := 0, otype := 262143, tag := 1, _cap_cursor := 0x1000 }

/-! ## Bounds compression -/

/-- Modelled from the spec: the largest exponent of the mantissa/exponent
encoding, the least at which a 14-bit mantissa spans every length of
`CAP_LEN_WIDTH` bits. -/
def CAP_MAX_EXPONENT : Nat := CAP_LEN_WIDTH - CAP_MANTISSA_WIDTH + 1

/-- The address `x` rounded down to the granule `2 ^ E`. -/
def round_down (x E : Nat) : Nat := x / 2 ^ E * 2 ^ E

/-- The address `x` rounded up to the granule `2 ^ E`. -/
def round_up (x E : Nat) : Nat := (x + (2 ^ E - 1)) / 2 ^ E * 2 ^ E

/-- Modelled from the spec: the window `[base, top)`, rounded outward to the
granule of exponent `E`, has a length whose mantissa fits in
`CAP_MANTISSA_WIDTH` bits. -/
def mantissa_fits (base top E : Nat) : Bool :=
  decide ((round_up top E - round_down base E) / 2 ^ E < 2 ^ CAP_MANTISSA_WIDTH)

/-- The first exponent from `E` on, among the next `fuel` ones, at which the
window fits; `E + fuel` when none does. -/
def find_exponent (base top : Nat) : Nat → Nat → Nat
  | 0, E => E
  | fuel + 1, E => if mantissa_fits base top E then E else find_exponent base top fuel (E + 1)

/-- Modelled from the spec: the exponent of the minimal encoding that covers
the window `[base, top)`. -/
def choose_exponent (base top : Nat) : Nat := find_exponent base top CAP_MAX_EXPONENT 0

/-- Modelled from the spec: a requested window is exactly representable when
some exponent of the encoding has both bounds on its granule and the length in
its mantissa. -/
def exactly_representable (base length : Nat) : Prop :=
  ∃ E, E < CAP_MAX_EXPONENT + 1 ∧ 2 ^ E ∣ base ∧ 2 ^ E ∣ base + length ∧
    length / 2 ^ E < 2 ^ CAP_MANTISSA_WIDTH

instance (base length : Nat) : Decidable (exactly_representable base length) := by
  unfold exactly_representable
  infer_instance

/-- Modelled from the spec: `set_cap_bounds` is declared in `cheri.h` as
`set_cap_bounds(capability_t cap)` without a body.  Following the
specification it takes the requested base and length, chooses the minimal
exponent, rounds the window outward to that granule, and reports whether the
stored bounds equal the request.  The cursor is kept and the offset is
re-derived from it; `base`, `length` and `offset` are stored in `uint64_t`
fields. -/
def set_cap_bounds (cap : capability_t) (base length : Nat) : SetCapBoundsResult :=
  let top := base + length
  let E := choose_exponent base top
  let newBase := round_down base E
  let newTop := round_up top E
  { exact := decide (newBase = base ∧ newTop = top)
    cap := { cap with
      base := to_uint64 newBase
      length := to_uint64 (newTop - newBase)
      offset := to_uint64 (cap._cap_cursor + 2 ^ UINT64_WIDTH - to_uint64 newBase) } }

/-! ## Layout of object types, permission words and fault codes -/

/-- C8: `CAP_MAX_OTYPE` is `2^18 - 4 = 262140`; every 18-bit object-type value
is either normal (below `CAP_MAX_OTYPE`) or reserved (from `CAP_MAX_OTYPE` to
`2^18 - 1`), never both; the reserved values are exactly the top
`RESERVED_OTYPES = 4` values of the range. -/
theorem otype_layout :
    CAP_MAX_OTYPE = 2 ^ 18 - 4 ∧ CAP_MAX_OTYPE = 262140 ∧ RESERVED_OTYPES = 4 ∧
    (∀ v, v < 2 ^ CAP_OTYPE_WIDTH →
      (v < CAP_MAX_OTYPE ∨ (CAP_MAX_OTYPE ≤ v ∧ v ≤ 2 ^ 18 - 1)) ∧
      ¬ (v < CAP_MAX_OTYPE ∧ (CAP_MAX_OTYPE ≤ v ∧ v ≤ 2 ^ 18 - 1)) ∧
      ((CAP_MAX_OTYPE ≤ v ∧ v ≤ 2 ^ 18 - 1) ↔
        v ∈ [2 ^ CAP_OTYPE_WIDTH - 4, 2 ^ CAP_OTYPE_WIDTH - 3,
             2 ^ CAP_OTYPE_WIDTH - 2, 2 ^ CAP_OTYPE_WIDTH - 1])) ∧
    (Finset.Ico CAP_MAX_OTYPE (2 ^ CAP_OTYPE_WIDTH)).card = RESERVED_OTYPES := by
  have hmax : CAP_MAX_OTYPE = 262140 := by decide
  have hw : (2 : Nat) ^ CAP_OTYPE_WIDTH = 262144 := by decide
  refine ⟨by decide, hmax, rfl, ?_, ?_⟩
  · intro v hv
    rw [hw] at hv
    rw [hmax, hw]
    simp only [List.mem_cons, List.mem_singleton, List.not_mem_nil, or_false]
    omega
  · rw [Nat.card_Ico, hmax, hw]
    rfl

/-- Witness of C8 at the object-type value 262141: reserved, not normal, and
one of the top four values. -/
theorem otype_layout_witness :
    (262141 < CAP_MAX_OTYPE ∨ (CAP_MAX_OTYPE ≤ 262141 ∧ 262141 ≤ 2 ^ 18 - 1)) ∧
    ¬ (262141 < CAP_MAX_OTYPE ∧ (CAP_MAX_OTYPE ≤ 262141 ∧ 262141 ≤ 2 ^ 18 - 1)) ∧
    ((CAP_MAX_OTYPE ≤ 262141 ∧ 262141 ≤ 2 ^ 18 - 1) ↔
      262141 ∈ [2 ^ CAP_OTYPE_WIDTH - 4, 2 ^ CAP_OTYPE_WIDTH - 3,
                2 ^ CAP_OTYPE_WIDTH - 2, 2 ^ CAP_OTYPE_WIDTH - 1]) :=
  otype_layout.2.2.2.1 262141 (by decide)

/-- C9: the 4-bit software-permission field at bit `CAP_UPERMS_SHIFT = 15`
does not overlap the 14-bit hardware-permission block, and a word combining
hardware permissions `h` and software permissions `u` gives both back. -/
theorem perms_layout :
    CAP_UPERMS_SHIFT = 15 ∧ CAP_HPERMS_WIDTH = 14 ∧ CAP_UPERMS_WIDTH = 4 ∧
    CAP_HPERMS_WIDTH ≤ CAP_UPERMS_SHIFT ∧
    ((2 ^ CAP_UPERMS_WIDTH - 1) <<< CAP_UPERMS_SHIFT) &&& (2 ^ CAP_HPERMS_WIDTH - 1) = 0 ∧
    (∀ h u : Nat, h < 2 ^ 14 → u < 2 ^ 4 →
      (h ||| (u <<< CAP_UPERMS_SHIFT)) &&& (2 ^ CAP_HPERMS_WIDTH - 1) = h ∧
      ((h ||| (u <<< CAP_UPERMS_SHIFT)) >>> CAP_UPERMS_SHIFT) &&& (2 ^ CAP_UPERMS_WIDTH - 1)
        = u) := by
  refine ⟨rfl, rfl, rfl, by decide, by decide, ?_⟩
  intro h u hh hu
  have hhw : CAP_HPERMS_WIDTH = 14 := rfl
  have huw : CAP_UPERMS_WIDTH = 4 := rfl
  have hsh : CAP_UPERMS_SHIFT = 15 := rfl
  rw [hhw, huw, hsh]
  have hbit : ∀ i, 14 ≤ i → h.testBit i = false := fun i hi =>
    Nat.testBit_lt_two_pow (lt_of_lt_of_le hh (Nat.pow_le_pow_right (by norm_num) hi))
  have ubit : ∀ i, 4 ≤ i → u.testBit i = false := fun i hi =>
    Nat.testBit_lt_two_pow (lt_of_lt_of_le hu (Nat.pow_le_pow_right (by norm_num) hi))
  constructor
  · apply Nat.eq_of_testBit_eq
    intro i
    simp only [Nat.testBit_and, Nat.testBit_or, Nat.testBit_shiftLeft,
      Nat.testBit_two_pow_sub_one]
    by_cases hi : i < 14
    · have h15 : ¬ (i ≥ 15) := by omega
      simp [hi, h15]
    · simp [hi, hbit i (by omega)]
  · apply Nat.eq_of_testBit_eq
    intro i
    simp only [Nat.testBit_and, Nat.testBit_or, Nat.testBit_shiftLeft, Nat.testBit_shiftRight,
      Nat.testBit_two_pow_sub_one]
    by_cases hi : i < 4
    · simp [hi, hbit (15 + i) (by omega)]
    · simp [hi, ubit i (by omega)]

/-- C10: the codes of `ExceptionType` are pairwise distinct; each of the 13
named hardware permissions has exactly one violation kind, with code `0x10`
plus its position in the order of naming (so `0x10` through `0x1C`); every
other kind has a code in `0x0..0xC`; a code is at least `0x10` iff its kind is
a permission violation. -/
theorem fault_taxonomy :
    (∀ a b : ExceptionType, a.code = b.code → a = b) ∧
    (∀ p : HardwarePermission, p.index < 13 ∧ p.violation.code = 0x10 + p.index) ∧
    (∀ p q : HardwarePermission, p.violation = q.violation → p = q) ∧
    (∀ i, i < 13 → ∃ p : HardwarePermission, p.index = i) ∧
    (∀ e : ExceptionType, ¬ e.isPermissionViolation → e.code ≤ 0xC) ∧
    (∀ e : ExceptionType, 0x10 ≤ e.code ↔ e.isPermissionViolation) := by
  refine ⟨?_, ?_, ?_, ?_, ?_, ?_⟩
  · intro a b h
    cases a <;> cases b <;> first | rfl | (exact absurd h (by decide))
  · intro p
    cases p <;> exact ⟨by decide, rfl⟩
  · intro p q h
    cases p <;> cases q <;> first | rfl | (exact absurd h (by decide))
  · intro i hi
    interval_cases i
    · exact ⟨.Global, rfl⟩
    · exact ⟨.Execute, rfl⟩
    · exact ⟨.Load, rfl⟩
    · exact ⟨.Store, rfl⟩
    · exact ⟨.LoadCap, rfl⟩
    · exact ⟨.StoreCap, rfl⟩
    · exact ⟨.StoreLocalCap, rfl⟩
    · exact ⟨.Seal, rfl⟩
    · exact ⟨.AccessSystemRegs, rfl⟩
    · exact ⟨.Invoke, rfl⟩
    · exact ⟨.AccessInvokeData, rfl⟩
    · exact ⟨.Unseal, rfl⟩
    · exact ⟨.SetCID, rfl⟩
  · intro e he
    revert he
    cases e <;> decide
  · intro e
    cases e <;> decide

/-- Witness of C9 at hardware permissions `0x2A5F` and software permissions `0xB`. -/
theorem perms_layout_witness :
    (0x2A5F ||| (0xB <<< CAP_UPERMS_SHIFT)) &&& (2 ^ CAP_HPERMS_WIDTH - 1) = 0x2A5F ∧
    ((0x2A5F ||| (0xB <<< CAP_UPERMS_SHIFT)) >>> CAP_UPERMS_SHIFT) &&&
      (2 ^ CAP_UPERMS_WIDTH - 1) = 0xB :=
  perms_layout.2.2.2.2.2 0x2A5F 0xB (by decide) (by decide)

/-! ## Width of the length and top domain -/

/-- C7: `length` and `top` are stored in `uint64_t`, which is
`CAP_ADDR_WIDTH = 64` bits wide, one bit short of `CAP_LEN_WIDTH = 65`.  No
stored top equals `2 ^ CAP_ADDR_WIDTH`: the top of the full address space
(base 0, length `2 ^ 64`) is stored as 0, and so is the top of the capability
with base `2 ^ 63` and length `2 ^ 63`, both of whose fields fit. -/
theorem top_wraps_in_uint64 :
    CAP_SIZE = 16 ∧ CAP_ADDR_WIDTH = 64 ∧ CAP_LEN_WIDTH = 65 ∧ UINT64_WIDTH < CAP_LEN_WIDTH ∧
    (∀ x, to_uint64 x < 2 ^ CAP_ADDR_WIDTH) ∧
    to_uint64 (0 + 2 ^ CAP_ADDR_WIDTH) = 0 ∧
    to_uint64 (2 ^ CAP_ADDR_WIDTH) = 0 ∧
    (∀ cap : capability_t, get_cap_top cap ≠ 2 ^ CAP_ADDR_WIDTH ∧
      get_cap_length cap ≠ 2 ^ CAP_ADDR_WIDTH ∧
      (get_cap_bounds cap).top ≠ 2 ^ CAP_ADDR_WIDTH) ∧
    (∀ cap : capability_t, cap.base = 2 ^ 63 → cap.length = 2 ^ 63 →
      cap.base + cap.length = 2 ^ CAP_ADDR_WIDTH ∧ get_cap_top cap = 0 ∧
      (get_cap_bounds cap).top = 0) := by
  have hlt : ∀ x, to_uint64 x < 2 ^ CAP_ADDR_WIDTH := fun x =>
    Nat.mod_lt x (by decide)
  refine ⟨rfl, rfl, rfl, by decide, hlt, by decide, by decide, ?_, ?_⟩
  · intro cap
    exact ⟨Nat.ne_of_lt (hlt _), Nat.ne_of_lt (hlt _), Nat.ne_of_lt (hlt _)⟩
  · intro cap hb hl
    unfold get_cap_top get_cap_bounds
    rw [hb, hl]
    exact ⟨by decide, by decide, by decide⟩

/-! ## Tag clearing -/

/-- C4: `clear_tag`, `clear_tag_if` and `clear_tag_if_sealed` return a
capability whose base, length, offset, permissions, software permissions,
flags, object type and cursor are those of the argument; `clear_tag` leaves
tag 0; sealedness and the decompressed bounds are unchanged by `clear_tag`. -/
theorem clear_tag_frame (c : capability_t) (b : Bool) :
    (∀ r, (r = clear_tag c ∨ r = clear_tag_if c b ∨ r = clear_tag_if_sealed c) →
      r.base = c.base ∧ r.length = c.length ∧ r.offset = c.offset ∧
      r.permissions = c.permissions ∧ r.uperissions = c.uperissions ∧
      r.flags = c.flags ∧ r.otype = c.otype ∧ r._cap_cursor = c._cap_cursor) ∧
    (clear_tag c).tag = 0 ∧
    (clear_tag_if c true).tag = 0 ∧ clear_tag_if c false = c ∧
    (is_cap_sealed c = true → (clear_tag_if_sealed c).tag = 0) ∧
    (is_cap_sealed c = false → clear_tag_if_sealed c = c) ∧
    is_cap_sealed (clear_tag c) = is_cap_sealed c ∧
    get_cap_bounds (clear_tag c) = get_cap_bounds c := by
  refine ⟨?_, rfl, rfl, rfl, ?_, ?_, rfl, rfl⟩
  · intro r hr
    rcases hr with rfl | rfl | rfl
    · exact ⟨rfl, rfl, rfl, rfl, rfl, rfl, rfl, rfl⟩
    · cases b
      · exact ⟨rfl, rfl, rfl, rfl, rfl, rfl, rfl, rfl⟩
      · exact ⟨rfl, rfl, rfl, rfl, rfl, rfl, rfl, rfl⟩
    · unfold clear_tag_if_sealed
      cases is_cap_sealed c
      · exact ⟨rfl, rfl, rfl, rfl, rfl, rfl, rfl, rfl⟩
      · exact ⟨rfl, rfl, rfl, rfl, rfl, rfl, rfl, rfl⟩
  · intro h
    unfold clear_tag_if_sealed
    rw [h]
    rfl
  · intro h
    unfold clear_tag_if_sealed
    rw [h]
    rfl

/-! ## Sealing and unsealing -/

theorem round_down_le (x E : Nat) : round_down x E ≤ x :=
  Nat.div_mul_le_self x (2 ^ E)

theorem le_round_up (x E : Nat) : x ≤ round_up x E := by
  unfold round_up
  have hg : 0 < 2 ^ E := Nat.pow_pos (by norm_num)
  have h1 := Nat.div_add_mod (x + (2 ^ E - 1)) (2 ^ E)
  have h2 := Nat.mod_lt (x + (2 ^ E - 1)) hg
  rw [Nat.mul_comm] at h1
  omega

theorem round_up_le_add (x E : Nat) : round_up x E ≤ x + (2 ^ E - 1) :=
  Nat.div_mul_le_self (x + (2 ^ E - 1)) (2 ^ E)

theorem round_down_of_dvd {x E : Nat} (h : 2 ^ E ∣ x) : round_down x E = x :=
  Nat.div_mul_cancel h

theorem round_up_of_dvd {x E : Nat} (h : 2 ^ E ∣ x) : round_up x E = x := by
  unfold round_up
  have hg : 0 < 2 ^ E := Nat.pow_pos (by norm_num)
  obtain ⟨k, rfl⟩ := h
  rw [Nat.mul_add_div hg, Nat.div_eq_of_lt (by omega), Nat.add_zero, Nat.mul_comm]

theorem dvd_round_down (x E : Nat) : 2 ^ E ∣ round_down x E :=
  Dvd.intro_left _ rfl

theorem dvd_round_up (x E : Nat) : 2 ^ E ∣ round_up x E :=
  Dvd.intro_left _ rfl

/-! ## The chosen exponent -/

theorem find_exponent_le (base top : Nat) :
    ∀ fuel E, find_exponent base top fuel E ≤ E + fuel := by
  intro fuel
  induction fuel with
  | zero => intro E; simp [find_exponent]
  | succ n ih =>
    intro E
    unfold find_exponent
    split
    · omega
    · have := ih (E + 1)
      omega

/-- The search returns an exponent at which the window fits, unless it ran out
of exponents to try. -/
theorem find_exponent_fits_or_last (base top : Nat) :
    ∀ fuel E, mantissa_fits base top (find_exponent base top fuel E) = true ∨
      find_exponent base top fuel E = E + fuel := by
  intro fuel
  induction fuel with
  | zero => intro E; right; simp [find_exponent]
  | succ n ih =>
    intro E
    unfold find_exponent
    split
    · left; assumption
    · rcases ih (E + 1) with h | h
      · left; exact h
      · right; omega

/-- The search returns no exponent above one at which the window fits. -/
theorem find_exponent_minimal (base top : Nat) :
    ∀ fuel E E1, E ≤ E1 → mantissa_fits base top E1 = true →
      find_exponent base top fuel E ≤ E1 := by
  intro fuel
  induction fuel with
  | zero => intro E E1 h _; simpa [find_exponent] using h
  | succ n ih =>
    intro E E1 hle hfit
    unfold find_exponent
    split
    · exact hle
    · rename_i hno
      have hne : E ≠ E1 := by
        intro heq
        rw [heq] at hno
        exact hno hfit
      exact ih (E + 1) E1 (by omega) hfit

theorem choose_exponent_le_max (base top : Nat) :
    choose_exponent base top ≤ CAP_MAX_EXPONENT := by
  have := find_exponent_le base top CAP_MAX_EXPONENT 0
  unfold choose_exponent
  omega

/-- At the largest exponent every window with a top up to `2 ^ 64` fits. -/
theorem mantissa_fits_max {base top : Nat} (htop : top ≤ 2 ^ 64) :
    mantissa_fits base top CAP_MAX_EXPONENT = true := by
  unfold mantissa_fits
  rw [decide_eq_true_eq]
  have h1 := round_up_le_add top CAP_MAX_EXPONENT
  have hE : CAP_MAX_EXPONENT = 52 := rfl
  have hM : CAP_MANTISSA_WIDTH = 14 := rfl
  rw [hE] at h1 ⊢
  rw [hM]
  apply Nat.div_lt_of_lt_mul
  norm_num at h1 htop ⊢
  omega

theorem choose_exponent_fits {base top : Nat} (htop : top ≤ 2 ^ 64) :
    mantissa_fits base top (choose_exponent base top) = true := by
  unfold choose_exponent
  rcases find_exponent_fits_or_last base top CAP_MAX_EXPONENT 0 with h | h
  · exact h
  · rw [h, Nat.zero_add]
    exact mantissa_fits_max htop

/-- A window with both bounds on the granule of `E` fits at `E` exactly when
its length is within the mantissa. -/
theorem mantissa_fits_of_aligned {base length E : Nat} (hb : 2 ^ E ∣ base)
    (ht : 2 ^ E ∣ base + length) :
    mantissa_fits base (base + length) E = decide (length / 2 ^ E < 2 ^ CAP_MANTISSA_WIDTH) := by
  unfold mantissa_fits
  rw [round_up_of_dvd ht, round_down_of_dvd hb, Nat.add_sub_cancel_left]

/-- An exactly representable request is left unchanged by the rounding at the
chosen exponent. -/
theorem rounding_exact_of_representable {base length : Nat}
    (h : exactly_representable base length) :
    round_down base (choose_exponent base (base + length)) = base ∧
    round_up (base + length) (choose_exponent base (base + length)) = base + length := by
  obtain ⟨E1, _, hb, ht, hm⟩ := h
  have hfit : mantissa_fits base (base + length) E1 = true := by
    rw [mantissa_fits_of_aligned hb ht, decide_eq_true_eq]
    exact hm
  have hle : choose_exponent base (base + length) ≤ E1 :=
    find_exponent_minimal base (base + length) CAP_MAX_EXPONENT 0 E1 (Nat.zero_le _) hfit
  have hdvd : 2 ^ choose_exponent base (base + length) ∣ 2 ^ E1 := Nat.pow_dvd_pow 2 hle
  exact ⟨round_down_of_dvd (dvd_trans hdvd hb), round_up_of_dvd (dvd_trans hdvd ht)⟩

/-- A request that the rounding at the chosen exponent leaves unchanged is
exactly representable. -/
theorem representable_of_rounding_exact {base length : Nat} (htop : base + length ≤ 2 ^ 64)
    (hb : round_down base (choose_exponent base (base + length)) = base)
    (ht : round_up (base + length) (choose_exponent base (base + length)) = base + length) :
    exactly_representable base length := by
  have hdb : 2 ^ choose_exponent base (base + length) ∣ base := by
    have := dvd_round_down base (choose_exponent base (base + length))
    rwa [hb] at this
  have hdt : 2 ^ choose_exponent base (base + length) ∣ base + length := by
    have := dvd_round_up (base + length) (choose_exponent base (base + length))
    rwa [ht] at this
  have hfit := @choose_exponent_fits base (base + length) htop
  rw [mantissa_fits_of_aligned hdb hdt, decide_eq_true_eq] at hfit
  exact ⟨_, Nat.lt_succ_of_le (choose_exponent_le_max _ _), hdb, hdt, hfit⟩

/-! ## Setting and reading bounds -/

/-- The bounds read back from the result of `set_cap_bounds`, when the covering
top is below `2 ^ 64`: the request rounded outward at the chosen exponent. -/
theorem get_cap_bounds_set_cap_bounds (cap : capability_t) (base length : Nat)
    (hfit : round_up (base + length) (choose_exponent base (base + length)) < 2 ^ 64) :
    get_cap_bounds (set_cap_bounds cap base length).cap =
      { base := round_down base (choose_exponent base (base + length)),
        top := round_up (base + length) (choose_exponent base (base + length)) } := by
  have h1 := round_down_le base (choose_exponent base (base + length))
  have h2 := le_round_up (base + length) (choose_exponent base (base + length))
  have hb : round_down base (choose_exponent base (base + length)) < 2 ^ 64 := by omega
  unfold get_cap_bounds set_cap_bounds to_uint64
  have hU : UINT64_WIDTH = 64 := rfl
  simp only [hU]
  rw [Nat.mod_eq_of_lt hb, Nat.mod_eq_of_lt hb,
    Nat.mod_eq_of_lt (lt_of_le_of_lt (Nat.sub_le _ _) hfit),
    Nat.add_sub_cancel' (by omega), Nat.mod_eq_of_lt hfit]

/-- Round trip of an exactly representable request whose top is below
`2 ^ 64`: the bounds read back are the request, and the result is exact. -/
theorem set_cap_bounds_roundtrip (cap : capability_t) (base length : Nat)
    (hrep : exactly_representable base length) (htop : base + length < 2 ^ 64) :
    get_cap_bounds (set_cap_bounds cap base length).cap
      = { base := base, top := base + length } ∧
    (set_cap_bounds cap base length).exact = true := by
  obtain ⟨hb, ht⟩ := rounding_exact_of_representable hrep
  constructor
  · rw [get_cap_bounds_set_cap_bounds cap base length (by rw [ht]; exact htop), hb, ht]
  · unfold set_cap_bounds
    simp only [decide_eq_true_eq]
    exact ⟨hb, ht⟩

/-- The round trip at the window `[0x1000, 0x1100)` and at a window of length 0. -/
theorem set_cap_bounds_roundtrip_examples :
    (get_cap_bounds (set_cap_bounds sample_cap 0x1000 0x100).cap
      = { base := 0x1000, top := 0x1000 + 0x100 } ∧
     (set_cap_bounds sample_cap 0x1000 0x100).exact = true) ∧
    (get_cap_bounds (set_cap_bounds sample_cap 0x1003 0).cap
      = { base := 0x1003, top := 0x1003 + 0 } ∧
     (set_cap_bounds sample_cap 0x1003 0).exact = true) :=
  ⟨set_cap_bounds_roundtrip sample_cap 0x1000 0x100 (by decide) (by decide),
   set_cap_bounds_roundtrip sample_cap 0x1003 0 (by decide) (by decide)⟩

/-- C1 at the failing inputs: the window `[2^63, 2^64)` is exactly
representable and both its base and its length fit in `uint64_t`;
`set_cap_bounds` reports it exact, but `get_cap_bounds` reads back top 0, not
`2^63 + 2^63 = 2^64`.  The full address space (base 0, length `2^64`) is
exactly representable and reported exact, and reads back as `(0, 0)`. -/
theorem bounds_roundtrip_wraps_at_full_top (cap : capability_t) :
    exactly_representable (2 ^ 63) (2 ^ 63) ∧
    (set_cap_bounds cap (2 ^ 63) (2 ^ 63)).exact = true ∧
    get_cap_bounds (set_cap_bounds cap (2 ^ 63) (2 ^ 63)).cap = { base := 2 ^ 63, top := 0 } ∧
    get_cap_bounds (set_cap_bounds cap (2 ^ 63) (2 ^ 63)).cap
      ≠ { base := 2 ^ 63, top := 2 ^ 63 + 2 ^ 63 } ∧
    exactly_representable 0 (2 ^ CAP_ADDR_WIDTH) ∧
    (set_cap_bounds cap 0 (2 ^ CAP_ADDR_WIDTH)).exact = true ∧
    get_cap_bounds (set_cap_bounds cap 0 (2 ^ CAP_ADDR_WIDTH)).cap = { base := 0, top := 0 } ∧
    get_cap_bounds (set_cap_bounds cap 0 (2 ^ CAP_ADDR_WIDTH)).cap
      ≠ { base := 0, top := 0 + 2 ^ CAP_ADDR_WIDTH } := by
  have hE1 : choose_exponent (2 ^ 63) (2 ^ 63 + 2 ^ 63) = 50 := by decide
  have hE2 : choose_exponent 0 (0 + 2 ^ CAP_ADDR_WIDTH) = 51 := by decide
  have hb1 : get_cap_bounds (set_cap_bounds cap (2 ^ 63) (2 ^ 63)).cap
      = { base := 2 ^ 63, top := 0 } := by
    unfold get_cap_bounds set_cap_bounds
    simp only [hE1]
    decide
  have hb2 : get_cap_bounds (set_cap_bounds cap 0 (2 ^ CAP_ADDR_WIDTH)).cap
      = { base := 0, top := 0 } := by
    unfold get_cap_bounds set_cap_bounds
    simp only [hE2]
    decide
  refine ⟨by decide, ?_, hb1, ?_, by decide, ?_, hb2, ?_⟩
  · unfold set_cap_bounds
    simp only [hE1]
    decide
  · rw [hb1]
    decide
  · unfold set_cap_bounds
    simp only [hE2]
    decide
  · rw [hb2]
    decide

/-- Covering of a request that is not exactly representable, when its covering
top (the top rounded up at the chosen exponent) is below `2^64`: the bounds
read back from the result of `set_cap_bounds` contain the request, and the
result is inexact. -/
theorem set_cap_bounds_covers_below_wrap (cap : capability_t) (base length : Nat)
    (hrep : ¬ exactly_representable base length)
    (hfit : round_up (base + length) (choose_exponent base (base + length)) < 2 ^ 64) :
    (get_cap_bounds (set_cap_bounds cap base length).cap).base ≤ base ∧
    base + length ≤ (get_cap_bounds (set_cap_bounds cap base length).cap).top ∧
    (set_cap_bounds cap base length).exact = false := by
  refine ⟨?_, ?_, ?_⟩
  · rw [get_cap_bounds_set_cap_bounds cap base length hfit]
    exact round_down_le _ _
  · rw [get_cap_bounds_set_cap_bounds cap base length hfit]
    exact le_round_up _ _
  · unfold set_cap_bounds
    simp only [decide_eq_false_iff_not]
    rintro ⟨hb, ht⟩
    have hle := le_round_up (base + length) (choose_exponent base (base + length))
    exact hrep (representable_of_rounding_exact (by omega) hb ht)

/-- Covering at a request whose length needs exponent 4: base `0x1000`, length
`0x20123` is rounded to the granule `0x10`, top `0x21130`, and is inexact. -/
theorem set_cap_bounds_covers_example :
    choose_exponent 0x1000 (0x1000 + 0x20123) = 4 ∧
    (get_cap_bounds (set_cap_bounds sample_cap 0x1000 0x20123).cap).base ≤ 0x1000 ∧
    0x1000 + 0x20123 ≤ (get_cap_bounds (set_cap_bounds sample_cap 0x1000 0x20123).cap).top ∧
    (set_cap_bounds sample_cap 0x1000 0x20123).exact = false :=
  ⟨by decide, set_cap_bounds_covers_below_wrap sample_cap 0x1000 0x20123 (by decide) (by decide)⟩

/-- C2 at the failing input: base 1 and length `2^64 - 1` are both values of
`uint64_t`, the request is not exactly representable, and a window that covers
it has a top of at least `1 + (2^64 - 1) = 2^64`.  Every top that
`get_cap_bounds` reads is below `2^64`, so the bounds read back from the result
of `set_cap_bounds` (they are `(0, 0)`, reported inexact) do not cover the
request.  The rounding itself agrees with the example of the claim: at the
granule `0x10` the window from `0x1000` to `0x1123` rounds outward to the
window from `0x1000` to `0x1130`, which is not the request. -/
theorem covering_fails_at_full_top (cap : capability_t) :
    (1 < 2 ^ UINT64_WIDTH ∧ 2 ^ 64 - 1 < 2 ^ UINT64_WIDTH) ∧
    ¬ exactly_representable 1 (2 ^ 64 - 1) ∧
    1 + (2 ^ 64 - 1) = 2 ^ CAP_ADDR_WIDTH ∧
    (∀ c : capability_t, (get_cap_bounds c).top < 1 + (2 ^ 64 - 1)) ∧
    (set_cap_bounds cap 1 (2 ^ 64 - 1)).exact = false ∧
    get_cap_bounds (set_cap_bounds cap 1 (2 ^ 64 - 1)).cap = { base := 0, top := 0 } ∧
    ¬ (1 + (2 ^ 64 - 1) ≤ (get_cap_bounds (set_cap_bounds cap 1 (2 ^ 64 - 1)).cap).top) ∧
    (round_down 0x1000 4 = 0x1000 ∧ round_up (0x1000 + 0x123) 4 = 0x1130 ∧
      round_up (0x1000 + 0x123) 4 ≠ 0x1000 + 0x123) := by
  have hE : choose_exponent 1 (1 + (2 ^ 64 - 1)) = 51 := by decide
  have htop : ∀ c : capability_t, (get_cap_bounds c).top < 1 + (2 ^ 64 - 1) := by
    intro c
    unfold get_cap_bounds to_uint64
    exact Nat.mod_lt _ (by decide)
  refine ⟨by decide, by decide, by decide, htop, ?_, ?_, ?_, by decide⟩
  · unfold set_cap_bounds
    simp only [hE]
    decide
  · unfold get_cap_bounds set_cap_bounds
    simp only [hE]
    decide
  · exact Nat.not_le.2 (htop _)

end Cheri
